import Mathlib

/-!
Shallow embedding of the supaR2 migration engine.

Paths and messages are modelled as `String` (a wrapper around `List Char`);
all path manipulation is defined on `List Char` and lifted.  Each definition
mirrors one function of the TypeScript source, named after it.
-/

namespace SupaR2

/-- JS `String.prototype.startsWith` on character lists: `startsWithL s p`
is true when `p` is an initial segment of `s`. -/
def startsWithL : List Char → List Char → Bool
  | _, [] => true
  | [], _ :: _ => false
  | c :: cs, p :: ps => c == p && startsWithL cs ps

/-- JS `String.prototype.includes` on character lists: `containsL s p` is
true when `p` occurs as a contiguous substring of `s`. -/
def containsL : List Char → List Char → Bool
  | [], p => p.isEmpty
  | s@(_ :: rest), p => startsWithL s p || containsL rest p

/-- JS `s.includes(pat)` lifted to `String`. -/
def strContains (s pat : String) : Bool := containsL s.data pat.data

/-- `path.replace(/\/+/g, '/')`: collapse every run of consecutive `'/'`
characters to a single `'/'` (drop each slash that is immediately followed
by another slash). -/
def collapseSlashes : List Char → List Char
  | [] => []
  | [c] => [c]
  | c :: d :: cs =>
    if c = '/' && d = '/' then collapseSlashes (d :: cs)
    else c :: collapseSlashes (d :: cs)

/-- `if (normalized.startsWith('/')) normalized = normalized.substring(1)`. -/
def stripLeadingSlash (l : List Char) : List Char :=
  match l with
  | [] => []
  | c :: cs => if c = '/' then cs else c :: cs

/-- `MigrationService.normalizePath` (src/lib/migration-service.ts:60-70):
collapse duplicate slashes, then strip a single leading slash. -/
def normalizePath (s : String) : String :=
  ⟨stripLeadingSlash (collapseSlashes s.data)⟩

/-- The `skipPatterns` array of `MigrationService.shouldSkipPath`
(src/lib/migration-service.ts:77-88), in source order. -/
def skipPatterns : List String :=
  [".emptyFolderPlaceholder", "test-", "mock-", "example", "/example",
   "/examples/", "sample-", "/sample/", "/test/", "/testing/"]

/-- `MigrationService.shouldSkipPath` (src/lib/migration-service.ts:75-91):
skip iff the path contains one of the fixed marker substrings. -/
def shouldSkipPath (path : String) : Bool :=
  skipPatterns.any (fun pat => strContains path pat)

/-- A character list holds no two consecutive `'/'` characters. -/
def noDouble : List Char → Bool
  | [] => true
  | [_] => true
  | c :: d :: cs => !(c = '/' && d = '/') && noDouble (d :: cs)

/-- `extension = path.split('.').pop()?.toLowerCase()` as used by both
`getContentType` copies: the part after the last `'.'` (the whole path when
there is no dot), lower-cased. -/
def extensionOf (path : String) : String :=
  ⟨(((path.data.splitOn '.').getLast?).getD []).map Char.toLower⟩

/-- The `contentTypes` table of the `/api/migrate-to-r2` route
(src/unnamed/part_003:146-166), also the table of `migrateFileToR2`
(src/unnamed/part_000:225-245). -/
def contentTypes : List (String × String) :=
  [("jpg", "image/jpeg"), ("jpeg", "image/jpeg"), ("png", "image/png"),
   ("gif", "image/gif"), ("webp", "image/webp"), ("svg", "image/svg+xml"),
   ("pdf", "application/pdf"), ("doc", "application/msword"),
   ("docx", "application/vnd.openxmlformats-officedocument.wordprocessingml.document"),
   ("xls", "application/vnd.ms-excel"),
   ("xlsx", "application/vnd.openxmlformats-officedocument.spreadsheetml.sheet"),
   ("mp3", "audio/mpeg"), ("mp4", "video/mp4"), ("webm", "video/webm"),
   ("json", "application/json"), ("html", "text/html"), ("css", "text/css"),
   ("js", "application/javascript"), ("txt", "text/plain")]

/-- The `contentTypes` table of `MigrationService.getContentType`
(src/lib/migration-service.ts:429-451); it additionally lists ppt/pptx. -/
def contentTypesService : List (String × String) :=
  [("jpg", "image/jpeg"), ("jpeg", "image/jpeg"), ("png", "image/png"),
   ("gif", "image/gif"), ("webp", "image/webp"), ("svg", "image/svg+xml"),
   ("pdf", "application/pdf"), ("doc", "application/msword"),
   ("docx", "application/vnd.openxmlformats-officedocument.wordprocessingml.document"),
   ("xls", "application/vnd.ms-excel"),
   ("xlsx", "application/vnd.openxmlformats-officedocument.spreadsheetml.sheet"),
   ("ppt", "application/vnd.ms-powerpoint"),
   ("pptx", "application/vnd.openxmlformats-officedocument.presentationml.presentation"),
   ("mp3", "audio/mpeg"), ("mp4", "video/mp4"), ("webm", "video/webm"),
   ("json", "application/json"), ("html", "text/html"), ("css", "text/css"),
   ("js", "application/javascript"), ("txt", "text/plain")]

/-- `getContentType` of the `/api/migrate-to-r2` route
(src/unnamed/part_003:143-169): look the lower-cased extension up in the
fixed table; an empty extension is falsy in JS, and an unknown extension
falls back to `application/octet-stream`. -/
def getContentType (path : String) : String :=
  let ext := extensionOf path
  if ext = "" then "application/octet-stream"
  else (contentTypes.lookup ext).getD "application/octet-stream"

/-- `MigrationService.getContentType` (src/lib/migration-service.ts:426-454),
identical logic over the service's table. -/
def getContentTypeService (path : String) : String :=
  let ext := extensionOf path
  if ext = "" then "application/octet-stream"
  else (contentTypesService.lookup ext).getD "application/octet-stream"

/-- The `MigrationProgress` record (src/lib/migration-service.ts:16-22);
`errors` is the JS object used as a map, modelled as an association list
whose most recent binding is first. -/
structure MigrationProgress where
  total : Nat
  completed : Nat
  failed : Nat
  inProgress : Bool
  errors : List (String × String)
deriving DecidableEq

/-- The external collaborators `migrateFile` consults, as result oracles:
`existsInR2` is the boolean `fileExistsInR2` resolves with inside a run
(the R2 client is known to be configured there), and `upload` is the
outcome of `uploadToR2` — `Except.error msg` when it throws. -/
structure MigrateEnv where
  existsInR2 : String → Bool
  upload : String → Except String Unit

/-- `MigrationService.migrateFile` (src/lib/migration-service.ts:348-378).
Returns the updated progress and whether the transfer (the `uploadToR2`
call) was invoked for this item. -/
def migrateFile (env : MigrateEnv) (st : MigrationProgress) (path : String) :
    MigrationProgress × Bool :=
  if shouldSkipPath path then ({ st with completed := st.completed + 1 }, false)
  else
    let normalized := normalizePath path
    if env.existsInR2 normalized then ({ st with completed := st.completed + 1 }, false)
    else
      match env.upload normalized with
      | Except.ok _ => ({ st with completed := st.completed + 1 }, true)
      | Except.error msg =>
        ({ st with failed := st.failed + 1, errors := (path, msg) :: st.errors }, true)

/-- The progress record `migrateFiles` resets to at dispatch
(src/lib/migration-service.ts:394-400). -/
def initProgress (files : List String) : MigrationProgress :=
  { total := files.length, completed := 0, failed := 0, inProgress := true, errors := [] }

/-- The batch loop of `migrateFiles` (src/lib/migration-service.ts:403-408):
every selected file is passed to `migrateFile` exactly once; each item's
counter update is a single atomic assignment on the JS event loop, so the
batched concurrent execution updates the progress record item by item, as
this sequential fold does. -/
def runFiles (env : MigrateEnv) : MigrationProgress → List String → MigrationProgress
  | st, [] => st
  | st, f :: fs => runFiles env (migrateFile env st f).1 fs

/-- `MigrationService.migrateFiles` (src/lib/migration-service.ts:383-414)
after its precondition checks: reset progress, run every file, then clear
`inProgress` (in a `finally`). -/
def migrateFiles (env : MigrateEnv) (files : List String) : MigrationProgress :=
  let final := runFiles env (initProgress files) files
  { final with inProgress := false }

/-- The precondition checks at the top of `migrateFiles`
(src/lib/migration-service.ts:384-391). -/
def migrateFilesCall (r2Configured : Bool) (current : MigrationProgress)
    (env : MigrateEnv) (files : List String) : Except String MigrationProgress :=
  if current.inProgress then Except.error "Migration already in progress"
  else if r2Configured = false then
    Except.error "Cloudflare R2 client is not initialized. Please connect to Cloudflare R2 first."
  else Except.ok (migrateFiles env files)

/-- `MigrationService.fileExistsInR2` (src/lib/migration-service.ts:196-219):
`head` is the outcome of sending the `HeadObjectCommand` (`Except.error msg`
when the SDK throws with message `msg`).  The catch block returns `false`
for every caught error unless its message mentions the not-initialized
precondition, which is rethrown. -/
def fileExistsInR2 (r2Configured : Bool) (head : Except String Unit) :
    Except String Bool :=
  if r2Configured = false then
    Except.error "Cloudflare R2 client is not initialized. Please connect to Cloudflare R2 first."
  else
    match head with
    | Except.ok _ => Except.ok true
    | Except.error msg =>
      if strContains msg "not initialized" then Except.error msg else Except.ok false

/-- The destination's possible reactions to the metadata probe, as C2
classifies them. -/
inductive HeadOutcome where
  | found
  | notFound (msg : String)
  | authError (msg : String)
  | networkError (msg : String)
deriving DecidableEq

/-- How the S3 SDK surfaces each probe reaction to `fileExistsInR2`: success
for a present object, a thrown error carrying the failure message for every
other condition. -/
def headResponse : HeadOutcome → Except String Unit
  | HeadOutcome.found => Except.ok ()
  | HeadOutcome.notFound m => Except.error m
  | HeadOutcome.authError m => Except.error m
  | HeadOutcome.networkError m => Except.error m

/-- Cloudflare connection parameters (src/unnamed/part_004); `customDomain`
is optional, `none` standing for the absent or empty (falsy) field. -/
structure CloudflareConfig where
  accountId : String
  accessKeyId : String
  secretAccessKey : String
  bucketName : String
  customDomain : Option String
deriving DecidableEq

/-- The new public URL computed after a successful upload
(src/unnamed/part_003:104-110). -/
def r2PublicUrl (cfg : CloudflareConfig) (key : String) : String :=
  match cfg.customDomain with
  | some d => "https://" ++ d ++ "/" ++ key
  | none =>
    "https://" ++ cfg.bucketName ++ "." ++ cfg.accountId ++
      ".r2.cloudflarestorage.com/" ++ key

/-- Outcome of `supabase.storage.from(bucket).download(path)` as the route
destructures it: an `error`, a null `data`, or the object body. -/
inductive DownloadResult where
  | failure (msg : String)
  | noData
  | ok (bytes : List Nat)
deriving DecidableEq

/-- The JSON body the `/api/migrate-to-r2` route responds with (also the
return value of `migrateFileToR2` in src/unnamed/part_000). -/
structure TransferResult where
  success : Bool
  url : Option String
  error : Option String
deriving DecidableEq

/-- The transfer executor: the body of the `/api/migrate-to-r2` route
(src/unnamed/part_003:51-123) = `migrateFileToR2` (src/unnamed/part_000:130-202)
after config validation.  `download` is the source store, `uploadOutcome`
the destination's reaction to the `PutObjectCommand`, and the destination
store is threaded explicitly so that "no write attempted" is visible. -/
def migrateFileToR2 (download : String → DownloadResult)
    (uploadOutcome : Except String Unit) (cfg : CloudflareConfig)
    (store : List (String × List Nat × String)) (filePath : String) :
    TransferResult × List (String × List Nat × String) :=
  let normalized := normalizePath filePath
  match download normalized with
  | DownloadResult.failure msg =>
    ({ success := false, url := none, error := some ("Error downloading file: " ++ msg) },
     store)
  | DownloadResult.noData =>
    ({ success := false, url := none, error := some "File could not be downloaded" },
     store)
  | DownloadResult.ok bytes =>
    let contentType := getContentType normalized
    match uploadOutcome with
    | Except.error msg =>
      ({ success := false, url := none,
         error := some ("Failed to upload to R2: " ++ msg) }, store)
    | Except.ok _ =>
      ({ success := true, url := some (r2PublicUrl cfg normalized), error := none },
       (normalized, bytes, contentType) :: store)

/-- Model of the platform URL constructor (`new URL(s)`), restricted to the
http/https URLs this application handles: `some pathname` when the string
parses (query and fragment cut off, pathname `"/"` when nothing follows the
host), `none` when the constructor would throw (no http scheme or empty
host). -/
def parseUrlPathname (s : String) : Option String :=
  let cs := s.data
  let afterScheme : Option (List Char) :=
    if startsWithL cs "https://".data then some (cs.drop 8)
    else if startsWithL cs "http://".data then some (cs.drop 7)
    else none
  match afterScheme with
  | none => none
  | some rest =>
    let host := rest.takeWhile (fun c => !(c == '/') && !(c == '?') && !(c == '#'))
    if host.isEmpty then none
    else
      let tail := rest.drop host.length
      let path := tail.takeWhile (fun c => !(c == '?') && !(c == '#'))
      some (if path.isEmpty then "/" else ⟨path⟩)

/-- The inline URL-to-key extraction of `startMigration`
(src/unnamed/part_002:370-389): parse the URL; split the pathname on `'/'`;
`findIndex` the first segment equal to the bucket name; if found at an index
strictly before the last, join all following segments with `'/'`; otherwise
take the last segment; if the string does not parse as a URL at all, use it
verbatim. -/
def extractKey (imageUrl : String) (bucketName : String) : String :=
  match parseUrlPathname imageUrl with
  | none => imageUrl
  | some pathname =>
    let pathParts : List (List Char) := pathname.data.splitOn '/'
    match pathParts.findIdx? (fun part => part == bucketName.data) with
    | some i =>
      if i < pathParts.length - 1 then
        ⟨List.intercalate ['/'] (pathParts.drop (i + 1))⟩
      else ⟨(pathParts.getLast?).getD []⟩
    | none => ⟨(pathParts.getLast?).getD []⟩

/-- The extractor exactly as C3 words it: "if some segment equals the bucket
name, returns the join of all following segments", with no restriction on
the position of the matching segment.  Kept side by side with `extractKey`
to compare the claim's words with the code. -/
def specExtractKey (imageUrl : String) (bucketName : String) : String :=
  match parseUrlPathname imageUrl with
  | none => imageUrl
  | some pathname =>
    let pathParts : List (List Char) := pathname.data.splitOn '/'
    match pathParts.findIdx? (fun part => part == bucketName.data) with
    | some i => ⟨List.intercalate ['/'] (pathParts.drop (i + 1))⟩
    | none => ⟨(pathParts.getLast?).getD []⟩

/-- JS `!s.trim()`: the string holds nothing but whitespace. -/
def jsTrimIsEmpty (s : String) : Bool :=
  s.data.all (fun c => c == ' ' || c == '\t' || c == '\n' || c == '\r')

/-- One iteration of the row loop of `startMigration`
(src/unnamed/part_002:353-449).  `imageUrl` is the row's image column
(`none` for a missing or non-string value), `apiResult` the parsed
migrate-to-r2 response, and `update` the database reference update, invoked
with the new URL; its `Except.error` is the thrown `updateError`.  Returns
the updated progress and whether `update` was invoked. -/
def processRow (bucketName : String) (cfg : CloudflareConfig)
    (selectedImageColumn : String) (rowId : String) (imageUrl : Option String)
    (apiResult : TransferResult) (update : String → Except String Unit)
    (st : MigrationProgress) : MigrationProgress × Bool :=
  let invalidUrl : MigrationProgress × Bool :=
    ({ st with
        failed := st.failed + 1
        errors := (rowId, "No valid image URL found in the \"" ++
          selectedImageColumn ++ "\" column") :: st.errors }, false)
  match imageUrl with
  | none => invalidUrl
  | some u =>
    if jsTrimIsEmpty u then invalidUrl
    else
      let filePath := extractKey u bucketName
      if filePath = "" then
        ({ st with
            failed := st.failed + 1
            errors := (rowId, "Could not extract file path from URL") :: st.errors },
         false)
      else
        if apiResult.success then
          let newUrl := (apiResult.url).getD (r2PublicUrl cfg filePath)
          match update newUrl with
          | Except.ok _ => ({ st with completed := st.completed + 1 }, true)
          | Except.error msg =>
            ({ st with
                failed := st.failed + 1
                errors := (rowId, msg) :: st.errors }, true)
        else
          ({ st with
              failed := st.failed + 1
              errors := (rowId, (apiResult.error).getD "Unknown error during migration")
                :: st.errors }, false)

/-- One listing entry of the source store: a folder (an entry with no `id`)
or a file with its metadata size. -/
inductive SEntry where
  | folder (name : String) (children : List SEntry)
  | file (name : String) (size : Nat) (lastModified : Option String)

/-- The `MigrationFile` record (src/lib/migration-service.ts:9-14) as
`listFiles` creates it. -/
structure MigrationFile where
  path : String
  size : Nat
  lastModified : Option String
  selected : Bool
deriving DecidableEq

/-- `normalizedPath ? normalizedPath + "/" + item.name : item.name`. -/
def joinPath (normalized name : String) : String :=
  if normalized = "" then name else normalized ++ "/" ++ name

/-- The item loop of `MigrationService.listFiles`
(src/lib/migration-service.ts:129-152), with the guard of each recursive
`listFiles` call (normalize, then return `[]` when the skip filter matches,
src/lib/migration-service.ts:104-109) inlined at the folder branch.  The
second component counts the storage `list` calls performed. -/
def listEntriesGo : String → List SEntry → List MigrationFile × Nat
  | _, [] => ([], 0)
  | normalized, e :: rest =>
    let prev := listEntriesGo normalized rest
    match e with
    | SEntry.file name size lm =>
      let itemPath := joinPath normalized name
      if shouldSkipPath itemPath then prev
      else ({ path := itemPath, size := size, lastModified := lm, selected := true }
              :: prev.1, prev.2)
    | SEntry.folder name children =>
      let itemPath := joinPath normalized name
      if shouldSkipPath itemPath then prev
      else
        let subNorm := normalizePath itemPath
        if shouldSkipPath subNorm then prev
        else
          let sub := listEntriesGo subNorm children
          (sub.1 ++ prev.1, sub.2 + 1 + prev.2)

/-- `MigrationService.listFiles` (src/lib/migration-service.ts:96-159) over a
source bucket modelled as the tree of entries under the start path: validate
the bucket name, normalize the start path, return `[]` before any listing
call when the skip filter matches it, else list (counted) and process the
entries. -/
def listFiles (bucketName : String) (root : List SEntry) (path : String) :
    Except String (List MigrationFile × Nat) :=
  if bucketName = "" then Except.error "Bucket name is required"
  else
    let normalized := normalizePath path
    if shouldSkipPath normalized then Except.ok ([], 0)
    else
      let r := listEntriesGo normalized root
      Except.ok (r.1, r.2 + 1)

instance {ε α : Type} [DecidableEq ε] [DecidableEq α] : DecidableEq (Except ε α) :=
  fun a b =>
  match a, b with
  | Except.ok x, Except.ok y =>
    match decEq x y with
    | isTrue h => isTrue (by rw [h])
    | isFalse h => isFalse (fun hc => h (Except.ok.inj hc))
  | Except.error x, Except.error y =>
    match decEq x y with
    | isTrue h => isTrue (by rw [h])
    | isFalse h => isFalse (fun hc => h (Except.error.inj hc))
  | Except.ok _, Except.error _ => isFalse (fun hc => Except.noConfusion hc)
  | Except.error _, Except.ok _ => isFalse (fun hc => Except.noConfusion hc)

theorem collapseSlashes_head (l : List Char) :
    (collapseSlashes l).head? = l.head? := by
  induction l using collapseSlashes.induct with
  | case1 => rfl
  | case2 c => rfl
  | case3 c d cs h ih =>
    simp only [Bool.and_eq_true, decide_eq_true_eq] at h
    obtain ⟨rfl, rfl⟩ := h
    have e : collapseSlashes ('/' :: '/' :: cs) = collapseSlashes ('/' :: cs) := by
      simp [collapseSlashes]
    rw [e, ih]
    rfl
  | case4 c d cs h ih => simp [collapseSlashes, h]

theorem noDouble_collapseSlashes (l : List Char) :
    noDouble (collapseSlashes l) = true := by
  induction l using collapseSlashes.induct with
  | case1 => rfl
  | case2 c => rfl
  | case3 c d cs h ih => simpa [collapseSlashes, h] using ih
  | case4 c d cs h ih =>
    have hd := collapseSlashes_head (d :: cs)
    rw [collapseSlashes, if_neg h]
    cases hE : collapseSlashes (d :: cs) with
    | nil => rfl
    | cons x xs =>
      rw [hE] at hd ih
      simp only [List.head?] at hd
      have hx : x = d := by injection hd
      subst hx
      simp only [noDouble, Bool.and_eq_true]
      refine ⟨?_, ih⟩
      rw [Bool.not_eq_true']
      exact Bool.eq_false_iff.mpr h

theorem collapseSlashes_of_noDouble (l : List Char) (h : noDouble l = true) :
    collapseSlashes l = l := by
  induction l using collapseSlashes.induct with
  | case1 => rfl
  | case2 c => rfl
  | case3 c d cs hc ih =>
    exfalso
    simp only [Bool.and_eq_true, decide_eq_true_eq] at hc
    obtain ⟨rfl, rfl⟩ := hc
    simp [noDouble] at h
  | case4 c d cs hc ih =>
    simp only [noDouble, Bool.and_eq_true] at h
    rw [collapseSlashes, if_neg hc, ih h.2]

theorem noDouble_tail (c : Char) (cs : List Char)
    (h : noDouble (c :: cs) = true) : noDouble cs = true := by
  cases cs with
  | nil => rfl
  | cons d ds =>
    simp only [noDouble, Bool.and_eq_true] at h
    exact h.2

theorem stripLeadingSlash_of_head (l : List Char) (h : l.head? ≠ some '/') :
    stripLeadingSlash l = l := by
  cases l with
  | nil => rfl
  | cons c cs =>
    have hc : ¬ c = '/' := by
      intro hcc
      exact h (by simp [List.head?, hcc])
    simp [stripLeadingSlash, hc]

theorem noDouble_stripLeadingSlash (l : List Char) (h : noDouble l = true) :
    noDouble (stripLeadingSlash l) = true := by
  cases l with
  | nil => rfl
  | cons c cs =>
    by_cases hc : c = '/'
    · subst hc
      simpa [stripLeadingSlash] using noDouble_tail _ _ h
    · rwa [stripLeadingSlash_of_head _ (by simp [List.head?, hc])]

theorem head_stripLeadingSlash (l : List Char) (h : noDouble l = true) :
    (stripLeadingSlash l).head? ≠ some '/' := by
  cases l with
  | nil => simp [stripLeadingSlash]
  | cons c cs =>
    by_cases hc : c = '/'
    · subst hc
      simp only [stripLeadingSlash, if_pos rfl]
      cases cs with
      | nil => simp
      | cons d ds =>
        have hd : ¬ d = '/' := by
          intro hdd
          subst hdd
          simp [noDouble] at h
        simp [List.head?, hd]
    · rw [stripLeadingSlash_of_head _ (by simp [List.head?, hc])]
      simp [List.head?, hc]

theorem startsWithL_append (p s : List Char) : startsWithL (p ++ s) p = true := by
  induction p with
  | nil => cases s <;> rfl
  | cons c cs ih => simp [startsWithL, ih]

theorem containsL_nil_pat (s : List Char) : containsL s [] = true := by
  cases s <;> simp [containsL, startsWithL, List.isEmpty]

theorem containsL_of_middle (pre pat suf : List Char) :
    containsL (pre ++ pat ++ suf) pat = true := by
  induction pre with
  | nil =>
    cases pat with
    | nil => simpa using containsL_nil_pat suf
    | cons x xs =>
      have h1 : startsWithL (x :: (xs ++ suf)) (x :: xs) = true := by
        have := startsWithL_append (x :: xs) suf
        simpa using this
      simp only [List.nil_append, List.cons_append, containsL, List.append_eq,
        h1, Bool.true_or]
  | cons c cs ih =>
    simp only [List.cons_append, containsL, List.append_eq, ih, Bool.or_true]

/-- C5: `normalizePath` is total, idempotent, collapses every run of
consecutive `'/'` to a single `'/'` (its output has no double slash and an
already clean input is returned unchanged), strips a single leading `'/'`
(its output never starts with a slash), and `normalizePath "a//b/c" = "a/b/c"`,
`normalizePath "/a/b" = "a/b"`. -/
theorem normalizePath_spec :
    (∀ s : String, normalizePath (normalizePath s) = normalizePath s) ∧
    (∀ s : String, noDouble (normalizePath s).data = true) ∧
    (∀ s : String, (normalizePath s).data.head? ≠ some '/') ∧
    (∀ s : String, noDouble s.data = true → s.data.head? ≠ some '/' →
      normalizePath s = s) ∧
    normalizePath "a//b/c" = "a/b/c" ∧ normalizePath "/a/b" = "a/b" := by
  have hnd : ∀ s : String, noDouble (normalizePath s).data = true := fun s =>
    noDouble_stripLeadingSlash _ (noDouble_collapseSlashes s.data)
  have hhead : ∀ s : String, (normalizePath s).data.head? ≠ some '/' := fun s =>
    head_stripLeadingSlash _ (noDouble_collapseSlashes s.data)
  refine ⟨?_, hnd, hhead, ?_, by decide, by decide⟩
  · intro s
    show (⟨stripLeadingSlash (collapseSlashes (normalizePath s).data)⟩ : String)
      = normalizePath s
    rw [collapseSlashes_of_noDouble _ (hnd s), stripLeadingSlash_of_head _ (hhead s)]
  · intro s h1 h2
    show (⟨stripLeadingSlash (collapseSlashes s.data)⟩ : String) = s
    rw [collapseSlashes_of_noDouble _ h1, stripLeadingSlash_of_head _ h2]

/-- Witness for C5: an already normalized path is fixed by `normalizePath`. -/
theorem normalizePath_spec_witness : normalizePath "a/b" = "a/b" :=
  normalizePath_spec.2.2.2.1 "a/b" (by decide) (by decide)

/-- C6: every path containing `/test/`, `/sample/`, `/examples/`, `test-`,
`mock-` or `.emptyFolderPlaceholder` as a substring is skipped, while
`"images/photo.jpg"` is not. -/
theorem shouldSkipPath_spec :
    (∀ (pat : String) (pre suf : List Char),
      pat ∈ (["/test/", "/sample/", "/examples/", "test-", "mock-",
              ".emptyFolderPlaceholder"] : List String) →
      shouldSkipPath ⟨pre ++ pat.data ++ suf⟩ = true) ∧
    shouldSkipPath "images/photo.jpg" = false := by
  refine ⟨?_, by decide⟩
  intro pat pre suf hmem
  have hpat : pat ∈ skipPatterns := by
    fin_cases hmem <;> decide
  have hc : strContains ⟨pre ++ pat.data ++ suf⟩ pat = true :=
    containsL_of_middle pre pat.data suf
  exact List.any_eq_true.mpr ⟨pat, hpat, hc⟩

/-- Witness for C6: a path with `/test/` in the middle is skipped. -/
theorem shouldSkipPath_spec_witness :
    shouldSkipPath ⟨"a".data ++ "/test/".data ++ "b.png".data⟩ = true :=
  shouldSkipPath_spec.1 "/test/" "a".data "b.png".data (by decide)

/-- C9: `getContentType` looks the extension up case-insensitively (paths
with the same lower-cased extension get the same type, `"x/y.PNG"` maps to
`image/png`), every unrecognized extension falls back to
`application/octet-stream` (in particular `"x/y.unknownext"`), and the table
maps each listed extension to its MIME type; the service's private copy
behaves identically on the named examples. -/
theorem getContentType_spec :
    (∀ p : String, contentTypes.lookup (extensionOf p) = none →
      getContentType p = "application/octet-stream") ∧
    (∀ p q : String, extensionOf p = extensionOf q →
      getContentType p = getContentType q) ∧
    getContentType "x/y.PNG" = "image/png" ∧
    getContentType "x/y.unknownext" = "application/octet-stream" ∧
    getContentType "a.jpg" = "image/jpeg" ∧
    getContentType "a.JPEG" = "image/jpeg" ∧
    getContentType "a.png" = "image/png" ∧
    getContentType "a.gif" = "image/gif" ∧
    getContentType "a.webp" = "image/webp" ∧
    getContentType "a.svg" = "image/svg+xml" ∧
    getContentType "a.pdf" = "application/pdf" ∧
    getContentType "a.doc" = "application/msword" ∧
    getContentType "a.docx"
      = "application/vnd.openxmlformats-officedocument.wordprocessingml.document" ∧
    getContentType "a.xls" = "application/vnd.ms-excel" ∧
    getContentType "a.xlsx"
      = "application/vnd.openxmlformats-officedocument.spreadsheetml.sheet" ∧
    getContentType "a.mp3" = "audio/mpeg" ∧
    getContentType "a.mp4" = "video/mp4" ∧
    getContentType "a.webm" = "video/webm" ∧
    getContentType "a.json" = "application/json" ∧
    getContentType "a.html" = "text/html" ∧
    getContentType "a.css" = "text/css" ∧
    getContentType "a.js" = "application/javascript" ∧
    getContentType "a.txt" = "text/plain" ∧
    getContentTypeService "x/y.PNG" = "image/png" ∧
    getContentTypeService "x/y.unknownext" = "application/octet-stream" := by
  refine ⟨?_, ?_, ?_⟩
  · intro p h
    unfold getContentType
    by_cases he : extensionOf p = ""
    · simp [he]
    · simp [he, h]
  · intro p q h
    unfold getContentType
    rw [h]
  · repeat constructor

/-- Witness for C9: an extension missing from the table falls back to the
octet-stream type. -/
theorem getContentType_spec_witness :
    getContentType "x/y.zzz" = "application/octet-stream" :=
  getContentType_spec.1 "x/y.zzz" (by decide)

/-- C2 counterexample: an auth failure and a network failure of the
destination probe are both returned as `Except.ok false` ("does not exist")
instead of being surfaced as errors — the catch block of `fileExistsInR2`
swallows every error that does not mention the not-initialized
precondition. -/
theorem fileExistsInR2_counterexample :
    fileExistsInR2 true (headResponse (HeadOutcome.authError "403 Forbidden"))
      = Except.ok false ∧
    fileExistsInR2 true (headResponse (HeadOutcome.networkError "connect ETIMEDOUT"))
      = Except.ok false := ⟨rfl, rfl⟩

/-- C2 (amended): calling the check with the destination client not
configured raises the precondition error; with a configured client it
returns `true` exactly when the probe succeeds and `false` for EVERY probe
failure — not-found, auth and network failures alike — except that a
failure whose message itself mentions the not-initialized precondition is
rethrown. -/
theorem fileExistsInR2_spec :
    (∀ head : Except String Unit, fileExistsInR2 false head =
      Except.error "Cloudflare R2 client is not initialized. Please connect to Cloudflare R2 first.") ∧
    fileExistsInR2 true (Except.ok ()) = Except.ok true ∧
    (∀ msg : String, strContains msg "not initialized" = false →
      fileExistsInR2 true (Except.error msg) = Except.ok false) ∧
    (∀ msg : String, strContains msg "not initialized" = true →
      fileExistsInR2 true (Except.error msg) = Except.error msg) := by
  refine ⟨fun head => rfl, rfl, ?_, ?_⟩
  · intro msg h
    simp [fileExistsInR2, h]
  · intro msg h
    simp [fileExistsInR2, h]

/-- Witness for C2 (amended): a plain not-found probe failure yields
`Except.ok false`. -/
theorem fileExistsInR2_spec_witness :
    fileExistsInR2 true (Except.error "NotFound") = Except.ok false :=
  fileExistsInR2_spec.2.2.1 "NotFound" (by decide)

/-- C7: whenever the destination existence check answers `true` for the
item's normalized key, the transfer is not invoked and the item still
increments `completed`. -/
theorem migrateFile_existsThenSkip (env : MigrateEnv) (st : MigrationProgress)
    (path : String) (h : env.existsInR2 (normalizePath path) = true) :
    (migrateFile env st path).2 = false ∧
    (migrateFile env st path).1.completed = st.completed + 1 := by
  unfold migrateFile
  by_cases hs : shouldSkipPath path = true
  · simp [hs]
  · simp [hs, h]

/-- Witness for C7 at a concrete environment where the key exists at the
destination. -/
theorem migrateFile_existsThenSkip_witness :
    (migrateFile ⟨fun _ => true, fun _ => Except.ok ()⟩
      (initProgress ["images/a.png"]) "images/a.png").2 = false ∧
    (migrateFile ⟨fun _ => true, fun _ => Except.ok ()⟩
      (initProgress ["images/a.png"]) "images/a.png").1.completed
      = (initProgress ["images/a.png"]).completed + 1 :=
  migrateFile_existsThenSkip _ _ _ rfl

theorem migrateFile_step (env : MigrateEnv) (st : MigrationProgress) (path : String) :
    (migrateFile env st path).1.completed + (migrateFile env st path).1.failed
      = st.completed + st.failed + 1 ∧
    (migrateFile env st path).1.total = st.total ∧
    (migrateFile env st path).1.inProgress = st.inProgress := by
  unfold migrateFile
  by_cases h1 : shouldSkipPath path = true
  · simp [h1]
    omega
  · by_cases h2 : env.existsInR2 (normalizePath path) = true
    · simp [h1, h2]
      omega
    · cases hu : env.upload (normalizePath path) with
      | ok _ =>
        simp [h1, h2, hu]
        omega
      | error msg =>
        simp [h1, h2, hu]
        omega

theorem migrateFile_exactlyOne (env : MigrateEnv) (st : MigrationProgress)
    (path : String) :
    ((migrateFile env st path).1.completed = st.completed + 1 ∧
      (migrateFile env st path).1.failed = st.failed) ∨
    ((migrateFile env st path).1.completed = st.completed ∧
      (migrateFile env st path).1.failed = st.failed + 1) := by
  unfold migrateFile
  by_cases h1 : shouldSkipPath path = true
  · left
    simp [h1]
  · by_cases h2 : env.existsInR2 (normalizePath path) = true
    · left
      simp [h1, h2]
    · cases hu : env.upload (normalizePath path) with
      | ok _ =>
        left
        simp [h1, h2, hu]
      | error msg =>
        right
        simp [h1, h2, hu]

theorem runFiles_counts (env : MigrateEnv) (fs : List String)
    (st : MigrationProgress) :
    (runFiles env st fs).completed + (runFiles env st fs).failed
      = st.completed + st.failed + fs.length ∧
    (runFiles env st fs).total = st.total ∧
    (runFiles env st fs).inProgress = st.inProgress := by
  induction fs generalizing st with
  | nil => simp [runFiles]
  | cons f fs ih =>
    have h1 := migrateFile_step env st f
    have h2 := ih (migrateFile env st f).1
    simp only [runFiles]
    refine ⟨?_, ?_, ?_⟩
    · rw [h2.1, h1.1]
      simp only [List.length_cons]
      omega
    · rw [h2.2.1, h1.2.1]
    · rw [h2.2.2, h1.2.2]

/-- C1: over a run of `migrateFiles`, `total` is the number of submitted
files and every intermediate state (after any prefix of the items) keeps
`completed + failed <= total` with `inProgress` still true; once the run
ends (`inProgress` false) `completed + failed = total`; and each item
increments exactly one of `completed` or `failed` by one. -/
theorem migrateFiles_progress (env : MigrateEnv) (files : List String) :
    (∀ n : Nat,
      (runFiles env (initProgress files) (files.take n)).completed
        + (runFiles env (initProgress files) (files.take n)).failed
        ≤ (runFiles env (initProgress files) (files.take n)).total ∧
      (runFiles env (initProgress files) (files.take n)).total = files.length ∧
      (runFiles env (initProgress files) (files.take n)).inProgress = true) ∧
    (migrateFiles env files).inProgress = false ∧
    (migrateFiles env files).completed + (migrateFiles env files).failed
      = (migrateFiles env files).total ∧
    (∀ (st : MigrationProgress) (path : String),
      ((migrateFile env st path).1.completed = st.completed + 1 ∧
        (migrateFile env st path).1.failed = st.failed) ∨
      ((migrateFile env st path).1.completed = st.completed ∧
        (migrateFile env st path).1.failed = st.failed + 1)) := by
  refine ⟨?_, rfl, ?_, fun st path => migrateFile_exactlyOne env st path⟩
  · intro n
    have h := runFiles_counts env (files.take n) (initProgress files)
    have hlen : (files.take n).length ≤ files.length := by
      simp [List.length_take]
    refine ⟨?_, ?_, ?_⟩
    · rw [h.2.1]
      have := h.1
      simp only [initProgress] at this ⊢
      omega
    · rw [h.2.1]
      rfl
    · rw [h.2.2]
      rfl
  · have h := runFiles_counts env files (initProgress files)
    show (runFiles env (initProgress files) files).completed
        + (runFiles env (initProgress files) files).failed
      = (runFiles env (initProgress files) files).total
    rw [h.1, h.2.1]
    simp [initProgress]

/-- C8: when the source download fails (an error or a null body), the
transfer returns a failure carrying the download-side message and the
destination store is left unchanged — no write is attempted, whatever the
upload oracle would have answered. -/
theorem migrateFileToR2_downloadFailure :
    (∀ (download : String → DownloadResult) (uploadOutcome : Except String Unit)
      (cfg : CloudflareConfig) (store : List (String × List Nat × String))
      (filePath msg : String),
      download (normalizePath filePath) = DownloadResult.failure msg →
      (migrateFileToR2 download uploadOutcome cfg store filePath).1
        = { success := false, url := none,
            error := some ("Error downloading file: " ++ msg) } ∧
      (migrateFileToR2 download uploadOutcome cfg store filePath).2 = store) ∧
    (∀ (download : String → DownloadResult) (uploadOutcome : Except String Unit)
      (cfg : CloudflareConfig) (store : List (String × List Nat × String))
      (filePath : String),
      download (normalizePath filePath) = DownloadResult.noData →
      (migrateFileToR2 download uploadOutcome cfg store filePath).1
        = { success := false, url := none,
            error := some "File could not be downloaded" } ∧
      (migrateFileToR2 download uploadOutcome cfg store filePath).2 = store) := by
  constructor
  · intro download uploadOutcome cfg store filePath msg h
    simp [migrateFileToR2, h]
  · intro download uploadOutcome cfg store filePath h
    simp [migrateFileToR2, h]

/-- Witness for C8 at a concrete always-failing download. -/
theorem migrateFileToR2_downloadFailure_witness :
    (migrateFileToR2 (fun _ => DownloadResult.failure "Object not found")
      (Except.ok ()) ⟨"acct", "ak", "sk", "bkt", none⟩ [] "a.png").1
      = { success := false, url := none,
          error := some ("Error downloading file: " ++ "Object not found") } ∧
    (migrateFileToR2 (fun _ => DownloadResult.failure "Object not found")
      (Except.ok ()) ⟨"acct", "ak", "sk", "bkt", none⟩ [] "a.png").2 = [] :=
  migrateFileToR2_downloadFailure.1 _ _ _ _ "a.png" "Object not found" rfl

theorem findIdxOfDecomp {α : Type} (p : α → Bool) (pre : List α) (x : α)
    (post : List α) (hx : p x = true) (hpre : ∀ y ∈ pre, p y = false) :
    (pre ++ x :: post).findIdx? p = some pre.length := by
  induction pre with
  | nil => simp [List.findIdx?_cons, hx]
  | cons a pre ih =>
    have ha : p a = false := hpre a (by simp)
    have ih2 := ih (fun y hy => hpre y (by simp [hy]))
    simp [List.findIdx?_cons, ha, List.findIdx?_succ, ih2]

theorem findIdxOfAllFalse {α : Type} (p : α → Bool) (l : List α)
    (h : ∀ y ∈ l, p y = false) : l.findIdx? p = none := by
  rw [List.findIdx?_eq_none_iff]
  intro x hx
  simp [h x hx]

/-- C3 counterexample: when the bucket name appears only as the LAST path
segment, the claim says the key is the join of all following segments, the
empty string; the code instead requires the matching index to lie strictly
before the last segment, so it falls through to the last-segment branch and
returns the bucket name itself. -/
theorem extractKey_counterexample :
    extractKey "https://h/mybucket" "mybucket" = "mybucket" ∧
    specExtractKey "https://h/mybucket" "mybucket" = "" := by
  exact ⟨by decide, by decide⟩

/-- C3 (amended): `extractKey` parses the input as a URL; on success it
splits the pathname into `'/'`-separated segments and looks for the first
segment equal to the bucket name; if that segment exists AND is not the
last segment, the key is the join of all following segments; if the bucket
name appears in no segment — or only as the last segment — the last path
segment alone is returned; a non-URL input is returned verbatim.  The two
spec examples hold. -/
theorem extractKey_spec :
    extractKey
      "https://proj.supabase.co/storage/v1/object/public/mybucket/images/a.png"
      "mybucket" = "images/a.png" ∧
    extractKey "images/a.png" "mybucket" = "images/a.png" ∧
    (∀ url bucket : String, parseUrlPathname url = none →
      extractKey url bucket = url) ∧
    (∀ (url bucket pathname : String) (pre post : List (List Char)),
      parseUrlPathname url = some pathname →
      pathname.data.splitOn '/' = pre ++ bucket.data :: post →
      bucket.data ∉ pre → post ≠ [] →
      extractKey url bucket = ⟨List.intercalate ['/'] post⟩) ∧
    (∀ url bucket pathname : String,
      parseUrlPathname url = some pathname →
      bucket.data ∉ pathname.data.splitOn '/' →
      extractKey url bucket
        = ⟨((pathname.data.splitOn '/').getLast?).getD []⟩) ∧
    (∀ (url bucket pathname : String) (pre : List (List Char)),
      parseUrlPathname url = some pathname →
      pathname.data.splitOn '/' = pre ++ [bucket.data] →
      bucket.data ∉ pre →
      extractKey url bucket = bucket) := by
  refine ⟨by decide, by decide, ?_, ?_, ?_, ?_⟩
  · intro url bucket h
    simp [extractKey, h]
  · intro url bucket pathname pre post hparse hsplit hmem hpost
    have hfind : (pathname.data.splitOn '/').findIdx?
        (fun part => part == bucket.data) = some pre.length := by
      rw [hsplit]
      refine findIdxOfDecomp _ pre _ post (by simp) ?_
      intro y hy
      have hne : y ≠ bucket.data := fun e => hmem (e ▸ hy)
      simp [hne]
    have hlt : pre.length < (pathname.data.splitOn '/').length - 1 := by
      rw [hsplit]
      have := List.length_pos.mpr hpost
      simp only [List.length_append, List.length_cons]
      omega
    have hdrop : (pathname.data.splitOn '/').drop (pre.length + 1) = post := by
      rw [hsplit, List.append_cons]
      have hl : (pre ++ [bucket.data]).length = pre.length + 1 := by simp
      rw [← hl, List.drop_left]
    simp only [extractKey, hparse, hfind, if_pos hlt, hdrop]
  · intro url bucket pathname hparse hmem
    have hfind : (pathname.data.splitOn '/').findIdx?
        (fun part => part == bucket.data) = none := by
      refine findIdxOfAllFalse _ _ ?_
      intro y hy
      have hne : y ≠ bucket.data := fun e => hmem (e ▸ hy)
      simp [hne]
    simp only [extractKey, hparse, hfind]
  · intro url bucket pathname pre hparse hsplit hmem
    have hfind : (pathname.data.splitOn '/').findIdx?
        (fun part => part == bucket.data) = some pre.length := by
      rw [hsplit]
      refine findIdxOfDecomp _ pre _ [] (by simp) ?_
      intro y hy
      have hne : y ≠ bucket.data := fun e => hmem (e ▸ hy)
      simp [hne]
    have hnlt : ¬ pre.length < (pathname.data.splitOn '/').length - 1 := by
      rw [hsplit]
      simp only [List.length_append, List.length_cons, List.length_nil]
      omega
    have hlast : (pathname.data.splitOn '/').getLast? = some bucket.data := by
      rw [hsplit]
      exact List.getLast?_concat pre
    simp only [extractKey, hparse, hfind, if_neg hnlt, hlast, Option.getD_some]

/-- Witness for C3 (amended) at concrete URLs covering the verbatim,
middle-segment, and last-segment branches. -/
theorem extractKey_spec_witness :
    extractKey "images/a.png" "mybucket" = "images/a.png" ∧
    extractKey "https://h/b/x" "b" = ⟨List.intercalate ['/'] ["x".data]⟩ ∧
    extractKey "https://h/b" "b" = "b" :=
  ⟨extractKey_spec.2.2.1 "images/a.png" "mybucket" (by decide),
   extractKey_spec.2.2.2.1 "https://h/b/x" "b" "/b/x" [[]] ["x".data]
     (by decide) (by decide) (by decide) (by decide),
   extractKey_spec.2.2.2.2.2 "https://h/b" "b" "/b" [[]]
     (by decide) (by decide) (by decide)⟩

/-- C4 counterexample: a transfer-level failure whose API error message is
"oops" and a reference-update failure whose database error message is
"oops" record IDENTICAL error entries for the row — the recorded messages
carry no distinguishing prefix, so the two failure classes are not
distinguishable in reporting. -/
theorem processRow_counterexample :
    (processRow "mybucket" ⟨"acct", "ak", "sk", "bkt", none⟩ "image_url" "r1"
      (some "https://h/mybucket/a.png")
      { success := false, url := none, error := some "oops" }
      (fun _ => Except.ok ())
      { total := 1, completed := 0, failed := 0, inProgress := true, errors := [] }).1.errors
      = [("r1", "oops")] ∧
    (processRow "mybucket" ⟨"acct", "ak", "sk", "bkt", none⟩ "image_url" "r1"
      (some "https://h/mybucket/a.png")
      { success := false, url := none, error := some "oops" }
      (fun _ => Except.ok ())
      { total := 1, completed := 0, failed := 0, inProgress := true, errors := [] }).2
      = false ∧
    (processRow "mybucket" ⟨"acct", "ak", "sk", "bkt", none⟩ "image_url" "r1"
      (some "https://h/mybucket/a.png")
      { success := true, url := some "https://cdn/a.png", error := none }
      (fun _ => Except.error "oops")
      { total := 1, completed := 0, failed := 0, inProgress := true, errors := [] }).1.errors
      = [("r1", "oops")] ∧
    (processRow "mybucket" ⟨"acct", "ak", "sk", "bkt", none⟩ "image_url" "r1"
      (some "https://h/mybucket/a.png")
      { success := true, url := some "https://cdn/a.png", error := none }
      (fun _ => Except.error "oops")
      { total := 1, completed := 0, failed := 0, inProgress := true, errors := [] }).2
      = true := ⟨rfl, rfl, rfl, rfl⟩

/-- C4 (amended): in table-mode the reference update runs only after a
successful transfer outcome, never speculatively; when the transfer
succeeds but the database update fails, the row is reported as failed with
the database error's message recorded verbatim — which carries no
distinguishing prefix, so it is not structurally distinguishable from a
transfer-level failure entry (which records the API error message or the
fixed fallback text). -/
theorem processRow_spec :
    (∀ (bucketName : String) (cfg : CloudflareConfig) (col rowId : String)
      (imageUrl : Option String) (apiResult : TransferResult)
      (update : String → Except String Unit) (st : MigrationProgress),
      (processRow bucketName cfg col rowId imageUrl apiResult update st).2 = true →
      apiResult.success = true) ∧
    (∀ (bucketName : String) (cfg : CloudflareConfig) (col rowId u : String)
      (apiResult : TransferResult) (update : String → Except String Unit)
      (st : MigrationProgress) (msg : String),
      jsTrimIsEmpty u = false → extractKey u bucketName ≠ "" →
      apiResult.success = true →
      update ((apiResult.url).getD (r2PublicUrl cfg (extractKey u bucketName)))
        = Except.error msg →
      (processRow bucketName cfg col rowId (some u) apiResult update st).1.failed
        = st.failed + 1 ∧
      (processRow bucketName cfg col rowId (some u) apiResult update st).1.errors
        = (rowId, msg) :: st.errors ∧
      (processRow bucketName cfg col rowId (some u) apiResult update st).2 = true) ∧
    (∀ (bucketName : String) (cfg : CloudflareConfig) (col rowId u : String)
      (apiResult : TransferResult) (update : String → Except String Unit)
      (st : MigrationProgress),
      jsTrimIsEmpty u = false → extractKey u bucketName ≠ "" →
      apiResult.success = false →
      (processRow bucketName cfg col rowId (some u) apiResult update st).1.failed
        = st.failed + 1 ∧
      (processRow bucketName cfg col rowId (some u) apiResult update st).1.errors
        = (rowId, (apiResult.error).getD "Unknown error during migration")
            :: st.errors ∧
      (processRow bucketName cfg col rowId (some u) apiResult update st).2 = false) := by
  refine ⟨?_, ?_, ?_⟩
  · intro bucketName cfg col rowId imageUrl apiResult update st h
    cases imageUrl with
    | none => simp [processRow] at h
    | some u =>
      by_cases ht : jsTrimIsEmpty u = true
      · simp [processRow, ht] at h
      · by_cases hf : extractKey u bucketName = ""
        · simp [processRow, ht, hf] at h
        · by_cases hs : apiResult.success = true
          · exact hs
          · simp [processRow, ht, hf, hs] at h
  · intro bucketName cfg col rowId u apiResult update st msg ht hf hs hu
    simp [processRow, ht, hf, hs, hu]
  · intro bucketName cfg col rowId u apiResult update st ht hf hs
    simp [processRow, ht, hf, hs]

/-- Witness for C4 (amended): a concrete successful transfer whose database
update fails is recorded as a failed row with the database message. -/
theorem processRow_spec_witness :
    (processRow "mybucket" ⟨"acct", "ak", "sk", "bkt", none⟩ "image_url" "r1"
      (some "https://h/mybucket/a.png")
      { success := true, url := some "https://cdn/a.png", error := none }
      (fun _ => Except.error "row deleted")
      { total := 1, completed := 0, failed := 0, inProgress := true, errors := [] }).1.failed
      = ({ total := 1, completed := 0, failed := 0, inProgress := true, errors := [] } : MigrationProgress).failed + 1 ∧
    (processRow "mybucket" ⟨"acct", "ak", "sk", "bkt", none⟩ "image_url" "r1"
      (some "https://h/mybucket/a.png")
      { success := true, url := some "https://cdn/a.png", error := none }
      (fun _ => Except.error "row deleted")
      { total := 1, completed := 0, failed := 0, inProgress := true, errors := [] }).1.errors
      = ("r1", "row deleted")
          :: ({ total := 1, completed := 0, failed := 0, inProgress := true, errors := [] } : MigrationProgress).errors ∧
    (processRow "mybucket" ⟨"acct", "ak", "sk", "bkt", none⟩ "image_url" "r1"
      (some "https://h/mybucket/a.png")
      { success := true, url := some "https://cdn/a.png", error := none }
      (fun _ => Except.error "row deleted")
      { total := 1, completed := 0, failed := 0, inProgress := true, errors := [] }).2
      = true :=
  processRow_spec.2.1 "mybucket" ⟨"acct", "ak", "sk", "bkt", none⟩ "image_url"
    "r1" "https://h/mybucket/a.png"
    { success := true, url := some "https://cdn/a.png", error := none }
    (fun _ => Except.error "row deleted")
    { total := 1, completed := 0, failed := 0, inProgress := true, errors := [] }
    "row deleted" (by decide) (by decide) rfl rfl

theorem listEntriesGo_skipFree (normalized : String) (es : List SEntry) :
    ∀ f ∈ (listEntriesGo normalized es).1,
      shouldSkipPath f.path = false ∧ f.selected = true := by
  induction normalized, es using listEntriesGo.induct with
  | case1 x =>
    intro f hf
    simp [listEntriesGo] at hf
  | case2 normalized rest name size lm itemPath hskip ih =>
    intro f hf
    have h2 : shouldSkipPath (joinPath normalized name) = true := hskip
    simp only [listEntriesGo] at hf
    rw [if_pos h2] at hf
    exact ih f hf
  | case3 normalized rest name size lm itemPath hskip ih =>
    intro f hf
    have h2 : ¬ shouldSkipPath (joinPath normalized name) = true := hskip
    simp only [listEntriesGo] at hf
    rw [if_neg h2] at hf
    simp only [List.mem_cons] at hf
    rcases hf with rfl | hf
    · exact ⟨Bool.eq_false_iff.mpr h2, rfl⟩
    · exact ih f hf
  | case4 normalized rest name children itemPath hskip ih =>
    intro f hf
    have h2 : shouldSkipPath (joinPath normalized name) = true := hskip
    simp only [listEntriesGo] at hf
    rw [if_pos h2] at hf
    exact ih f hf
  | case5 normalized rest name children itemPath hskip subNorm hsub ih =>
    intro f hf
    have h2 : ¬ shouldSkipPath (joinPath normalized name) = true := hskip
    have h3 : shouldSkipPath (normalizePath (joinPath normalized name)) = true := hsub
    simp only [listEntriesGo] at hf
    rw [if_neg h2, if_pos h3] at hf
    exact ih f hf
  | case6 normalized rest name children itemPath hskip subNorm hsub ih ihsub =>
    intro f hf
    have h2 : ¬ shouldSkipPath (joinPath normalized name) = true := hskip
    have h3 : ¬ shouldSkipPath (normalizePath (joinPath normalized name)) = true := hsub
    simp only [listEntriesGo] at hf
    rw [if_neg h2, if_neg h3] at hf
    simp only [List.mem_append] at hf
    rcases hf with hf | hf
    · exact ihsub f hf
    · exact ih f hf

/-- C10 counterexample: the start path `"/test//a"` matches the skip policy
as written (it contains `/test/`), yet `listFiles` performs a listing call
and returns a file, because the code applies the filter to the NORMALIZED
start path `"test/a"`, which the policy does not match. -/
theorem listFiles_counterexample :
    shouldSkipPath "/test//a" = true ∧
    listFiles "bucket" [SEntry.file "f.png" 10 none] "/test//a"
      = Except.ok
          ([{ path := "test/a/f.png", size := 10, lastModified := none, selected := true }],
           1) := by
  refine ⟨by decide, ?_⟩
  simp [listFiles, listEntriesGo, joinPath]
  decide

/-- C10 (amended): when the NORMALIZED start path matches the skip policy
(and the bucket name is present), `listFiles` returns the empty inventory
without performing any listing call; and every record of any successful
enumeration has a path the skip filter does not match and is marked
selected. -/
theorem listFiles_spec (bucketName : String) (root : List SEntry) (path : String) :
    (bucketName ≠ "" → shouldSkipPath (normalizePath path) = true →
      listFiles bucketName root path = Except.ok ([], 0)) ∧
    (∀ r, listFiles bucketName root path = Except.ok r →
      ∀ f ∈ r.1, shouldSkipPath f.path = false ∧ f.selected = true) := by
  constructor
  · intro hb hskip
    simp [listFiles, hb, hskip]
  · intro r hr f hf
    by_cases hb : bucketName = ""
    · simp [listFiles, hb] at hr
    · by_cases hskip : shouldSkipPath (normalizePath path) = true
      · simp [listFiles, hb, hskip] at hr
        rw [← hr] at hf
        simp at hf
      · simp [listFiles, hb, hskip] at hr
        rw [← hr] at hf
        exact listEntriesGo_skipFree (normalizePath path) root f hf

/-- Witness for C10 (amended): a start path whose normalized form matches
the skip policy yields the empty inventory with no listing call. -/
theorem listFiles_spec_witness :
    listFiles "bucket" [] "a/test/b" = Except.ok ([], 0) :=
  (listFiles_spec "bucket" [] "a/test/b").1 (by decide) (by decide)

end SupaR2
